import Mathlib

/-!
Shallow embedding of the `peer` library (src/index.js): a negotiation layer
over an RTCPeerConnection-style transport primitive.

The JavaScript object `Peer` holds a transport connection, a list of SDP
codec transforms, an optional bound data channel, and (via the
emitter-queue mixin) a pending queue of events replayed to late
subscribers.  Methods mutate the object and invoke the transport
primitive / event bus.  We embed each method as a pure function
`Peer → args → Peer × List Eff`: the returned `Peer` is the mutated
object (JavaScript methods that `return this` return that same mutated
object) and the `List Eff` is the ordered trace of externally visible
effects the method performs, including the effects of transport callbacks
it installs, which the caller of the model fires by passing an outcome or
an event list.  Asynchronous transport completions (`createOffer` /
`createAnswer` success or failure, `onicecandidate`, `ongatheringchange`,
`ondatachannel`) are modelled by parameters supplying what the primitive
reports; the trace records effects in the order the source performs them.
-/

/-- A session description `{type, sdp}` (RTCSessionDescription payload). -/
structure SessionDesc where
  type : String
  sdp : String
deriving DecidableEq

/-- An ICE candidate wrapper, as built by `new Candidate(candidate)` in
`Peer.prototype.ice`; the payload is kept opaque as the initializing text. -/
structure Candidate where
  init : String
deriving DecidableEq

/-- Payload carried by an emitted or queued event. -/
inductive Payload where
  | nil
  | desc (d : SessionDesc)
  | cand (c : String)
  | msg (m : String)
  | err (e : String)
deriving DecidableEq

/-- Externally visible effects of the embedded methods, in program order.
`emit` is a live event-bus notification; `queued` is a `queue(...)` call of
the emitter-queue mixin (delivered immediately to current subscribers and
retained in the pending queue for late subscribers); the remaining
constructors are calls into the transport primitive, the `channel(...)`
binding constructor from lib/channel, and the caller-supplied completion. -/
inductive Eff where
  | emit (topic : String) (pl : Payload)
  | queued (topic : String) (pl : Payload)
  | callHandler (h : String)
  | setLocalDescription (d : SessionDesc)
  | addIceCandidate (c : Candidate)
  | createDataChannel (label : String)
  | bindChannel (ch : Nat)
  | callFn (d : SessionDesc)
deriving DecidableEq

/-- Connection-side state the embedding tracks: the committed local
description and whether `answer()` installed the `ondatachannel` handler. -/
structure Connection where
  localDesc : Option SessionDesc
  ondatachannelSet : Bool

/-- The `Peer` object's state: its transport connection, the registered
codec transforms (`this.codecs`), the currently bound data channel
(`this.channel`, identified by the raw channel id it wraps), and the
pending queue kept by the emitter-queue mixin. -/
structure Peer where
  connection : Connection
  codecs : List (String → String)
  channel : Option Nat
  pendingQueue : List (String × Payload)

/-- A fresh peer, as after `Peer(options)` and `create()`: no codecs, no
channel, empty queue, nothing committed. -/
def Peer.init : Peer :=
  { connection := { localDesc := none, ondatachannelSet := false },
    codecs := [], channel := none, pendingQueue := [] }

/-- The emitter-queue `queue(topic, payload)` call: notify live subscribers
and retain the event in the pending queue for late subscribers (spec 4.5;
the mixin itself is an external collaborator). -/
def queueOp (p : Peer) (topic : String) (pl : Payload) : Peer × List Eff :=
  ({ p with pendingQueue := p.pendingQueue ++ [(topic, pl)] },
   [Eff.queued topic pl])

/-- The `onicecandidate` handler installed by `Peer.prototype.create`:
a non-null `event.candidate` is emitted live as a `candidate` event
(the raw candidate, uninspected); a null candidate queues `ready`. -/
def onicecandidate (p : Peer) (candidate : Option String) : Peer × List Eff :=
  match candidate with
  | some c => (p, [Eff.emit "candidate" (Payload.cand c)])
  | none => queueOp p "ready" Payload.nil

/-- The `ongatheringchange` handler installed by `Peer.prototype.create`:
when `event.currentTarget` is non-null and its `iceGatheringState` is
`complete`, queue `ready`; otherwise do nothing.  The argument is the
target's gathering state, `none` when the event has no target. -/
def ongatheringchange (p : Peer) (target : Option String) : Peer × List Eff :=
  match target with
  | some s => if s == "complete" then queueOp p "ready" Payload.nil else (p, [])
  | none => (p, [])

/-- One asynchronous gathering signal from the transport primitive:
a candidate-discovery callback (possibly with a null candidate) or a
gathering-state-change callback. -/
inductive IceEvent where
  | cand (c : Option String)
  | gather (target : Option String)
deriving DecidableEq

/-- Dispatch one gathering signal to the handler `create()` installed for it. -/
def iceStep (p : Peer) (e : IceEvent) : Peer × List Eff :=
  match e with
  | IceEvent.cand c => onicecandidate p c
  | IceEvent.gather t => ongatheringchange p t

/-- Fire a whole sequence of gathering signals, concatenating the traces. -/
def runIce (p : Peer) : List IceEvent → Peer × List Eff
  | [] => (p, [])
  | e :: es =>
    let r1 := iceStep p e
    let r2 := runIce r1.1 es
    (r2.1, r1.2 ++ r2.2)

/-- The codec loop of `Peer.prototype.local`:
`for(i = 0; i < codecs.length; i++) sdp = codecs[i](sdp)`. -/
def applyCodecs : List (String → String) → String → String
  | [], sdp => sdp
  | f :: fs, sdp => applyCodecs fs (f sdp)

/-- `Peer.prototype.local(session)`: run the codecs over `session.sdp`,
write the result back into the (mutated-in-place) session, and commit it
with `setLocalDescription`.  Returns the mutated peer, the mutated session
object, and the trace. -/
def Peer.local (p : Peer) (session : SessionDesc) :
    Peer × SessionDesc × List Eff :=
  let sdp := applyCodecs p.codecs session.sdp
  let session2 := { session with sdp := sdp }
  ({ p with connection := { p.connection with localDesc := some session2 } },
   session2,
   [Eff.setLocalDescription session2])

/-- Outcome the transport primitive reports to `createOffer`/`createAnswer`:
the success callback receives a description, the failure callback an error. -/
inductive SdpOutcome where
  | ok (d : SessionDesc)
  | err (e : String)
deriving DecidableEq

/-- The connection method `session()` selects:
`(type === 'offer') ? 'createOffer' : 'createAnswer'`. -/
def handlerName (type : String) : String :=
  if type == "offer" then "createOffer" else "createAnswer"

/-- `Peer.prototype.session(fn, opts, type)`: emit `before <type>`, invoke
the connection's create handler, and — in the success callback — apply
`local`, call `fn` (when supplied) with the mutated description, and queue
the `<type>` event carrying it; the failure callback emits `error` with the
cause.  `hasFn` records whether a completion callback was supplied; the
`opts` argument is passed through to the primitive and has no effect here. -/
def Peer.session (p : Peer) (hasFn : Bool) (type : String) (out : SdpOutcome) :
    Peer × List Eff :=
  let pre := [Eff.emit (String.append "before " type) Payload.nil,
              Eff.callHandler (handlerName type)]
  match out with
  | SdpOutcome.ok offer =>
    let r := Peer.local p offer
    let fnTr := if hasFn then [Eff.callFn r.2.1] else []
    let q := queueOp r.1 type (Payload.desc r.2.1)
    (q.1, pre ++ r.2.2 ++ fnTr ++ q.2)
  | SdpOutcome.err e => (p, pre ++ [Eff.emit "error" (Payload.err e)])

/-- `Peer.prototype.offer(fn, constraints)`: create the `master` data
channel on the connection, bind it with `channel(...)` (the raw channel is
given id 0), then run `session` with type `offer`. -/
def Peer.offer (p : Peer) (hasFn : Bool) (out : SdpOutcome) :
    Peer × List Eff :=
  let p1 := { p with channel := some 0 }
  let r := Peer.session p1 hasFn "offer" out
  (r.1, Eff.createDataChannel "master" :: Eff.bindChannel 0 :: r.2)

/-- `Peer.prototype.answer(fn, constraints)`: install the connection's
`ondatachannel` handler, then run `session` with type `answer`. -/
def Peer.answer (p : Peer) (hasFn : Bool) (out : SdpOutcome) :
    Peer × List Eff :=
  let p1 := { p with connection := { p.connection with ondatachannelSet := true } }
  let r := Peer.session p1 hasFn "answer" out
  (r.1, r.2)

/-- The transport primitive fires a channel-open notification carrying the
raw channel `ch`: if `answer()` installed the handler, the handler runs
`that.channel = channel(event.channel, that)` — a fresh binding every time. -/
def fireDataChannel (p : Peer) (ch : Nat) : Peer × List Eff :=
  if p.connection.ondatachannelSet then
    ({ p with channel := some ch }, [Eff.bindChannel ch])
  else (p, [])

/-- `Peer.prototype.ice(candidate)`: `if(candidate)` wrap it in a
`Candidate` and add it to the connection; a falsy candidate does nothing. -/
def Peer.ice (p : Peer) (candidate : Option String) : Peer × List Eff :=
  match candidate with
  | some c => (p, [Eff.addIceCandidate (Candidate.mk c)])
  | none => (p, [])

/-- `Peer.prototype.codec(fn)`: push `fn` onto `this.codecs` and return
the peer. -/
def Peer.codec (p : Peer) (f : String → String) : Peer :=
  { p with codecs := p.codecs ++ [f] }

/-- Register a whole sequence of pipeline stages, first to last, by
repeated `codec()` calls. -/
def registerStages (p : Peer) (fs : List (String → String)) : Peer :=
  fs.foldl Peer.codec p

/-- `Peer.prototype.send(msg)`: queue a `channel message` event (exactly
the same `queue` call as every other queued event) and return the peer. -/
def Peer.send (p : Peer) (msg : String) : Peer × List Eff :=
  queueOp p "channel message" (Payload.msg msg)

/-- Modelled from the spec: the replay contract of the emitter-queue
collaborator together with lib/channel, neither of which is under src/.
Per spec section 4.5 and section 6, a subscriber attaching after events
were queued receives the backlog for its topic in original order; the
channel binding created by `channel(...)` subscribes to the queued
`channel message` topic and writes each message out once the channel
exists.  `replayFor p topic` is the backlog such a late subscriber
receives. -/
def replayFor (p : Peer) (topic : String) : List Payload :=
  (p.pendingQueue.filter (fun e => e.1 == topic)).map (fun e => e.2)

/-- Does a trace action enqueue a `ready` event? -/
def isQueuedReady : Eff → Bool
  | Eff.queued t _ => t == "ready"
  | _ => false

/-- Number of `ready` enqueues in a trace. -/
def readyCount (tr : List Eff) : Nat := tr.countP isQueuedReady

/-- Is a gathering signal one of the two completion signals: a null
candidate payload, or a gathering-state change to `complete`? -/
def isCompletionSignal : IceEvent → Bool
  | IceEvent.cand none => true
  | IceEvent.cand (some _) => false
  | IceEvent.gather (some s) => s == "complete"
  | IceEvent.gather none => false

/-- Number of completion signals in a signal sequence. -/
def completionCount (evs : List IceEvent) : Nat := evs.countP isCompletionSignal

/-- The live `candidate` emissions of a trace, in order, with payloads. -/
def candidateEmits (tr : List Eff) : List Payload :=
  tr.filterMap (fun a => match a with
    | Eff.emit t pl => if t == "candidate" then some pl else none
    | _ => none)

/-- The non-null candidates of a signal sequence, in order, as payloads. -/
def nonNullCandidates (evs : List IceEvent) : List Payload :=
  evs.filterMap (fun e => match e with
    | IceEvent.cand (some c) => some (Payload.cand c)
    | _ => none)

/-- Does a trace action enqueue a `candidate` event? -/
def isQueuedCandidate : Eff → Bool
  | Eff.queued t _ => t == "candidate"
  | _ => false

/-- The descriptions committed by `setLocalDescription` in a trace. -/
def setLocals (tr : List Eff) : List SessionDesc :=
  tr.filterMap (fun a => match a with
    | Eff.setLocalDescription d => some d
    | _ => none)

/-- The queued events of a trace, in order. -/
def queuedEvents (tr : List Eff) : List (String × Payload) :=
  tr.filterMap (fun a => match a with
    | Eff.queued t pl => some (t, pl)
    | _ => none)

/-- The payloads of live `error` emissions in a trace. -/
def errorEmits (tr : List Eff) : List Payload :=
  tr.filterMap (fun a => match a with
    | Eff.emit t pl => if t == "error" then some pl else none
    | _ => none)

/-- Is a trace action a `channel(...)` binding creation? -/
def isBind : Eff → Bool
  | Eff.bindChannel _ => true
  | _ => false

/-- Is a trace action a `createDataChannel` call on the connection? -/
def isCreateDataChannel : Eff → Bool
  | Eff.createDataChannel _ => true
  | _ => false

/-- The codec loop of `local` is the left fold of the codec list over the
SDP text. -/
theorem applyCodecs_eq_foldl (fs : List (String → String)) (text : String) :
    applyCodecs fs text = fs.foldl (fun s f => f s) text := by
  induction fs generalizing text with
  | nil => rfl
  | cons f fs ih => simp [applyCodecs, List.foldl_cons, ih]

/-- Registering stages by repeated `codec()` calls appends them, in order,
to the codec list. -/
theorem registerStages_codecs (fs : List (String → String)) (p : Peer) :
    (registerStages p fs).codecs = p.codecs ++ fs := by
  induction fs generalizing p with
  | nil => simp [registerStages]
  | cons f fs ih =>
    simp [registerStages] at ih ⊢
    rw [ih]
    simp [Peer.codec]

/-- One gathering signal queues `ready` exactly when it is a completion
signal (null candidate, or state change to complete with a target). -/
theorem readyCount_iceStep (p : Peer) (e : IceEvent) :
    readyCount (iceStep p e).2 = if isCompletionSignal e then 1 else 0 := by
  cases e with
  | cand c =>
    cases c with
    | none => simp [iceStep, onicecandidate, queueOp, readyCount, isCompletionSignal, isQueuedReady]
    | some c => simp [iceStep, onicecandidate, readyCount, isCompletionSignal, isQueuedReady]
  | gather t =>
    cases t with
    | none => simp [iceStep, ongatheringchange, readyCount, isCompletionSignal]
    | some s =>
      by_cases h : s == "complete" <;>
        simp [iceStep, ongatheringchange, h, queueOp, readyCount, isCompletionSignal, isQueuedReady]

/-- C1 (amended): the handlers installed by `create()` queue one `ready`
event for each completion signal received — a null-candidate discovery
callback or a gathering-state change to complete — with no deduplication,
so a session that receives k completion signals queues `ready` k times. -/
theorem ready_triggers_once_per_completion_signal (p : Peer) (evs : List IceEvent) :
    readyCount (runIce p evs).2 = completionCount evs := by
  induction evs generalizing p with
  | nil => simp [runIce, readyCount, completionCount]
  | cons e es ih =>
    simp [runIce, readyCount, List.countP_append, completionCount, List.countP_cons] at ih ⊢
    have h1 := readyCount_iceStep p e
    simp [readyCount] at h1
    rw [h1, ih]
    by_cases h : isCompletionSignal e
    · simp [h]
      omega
    · simp [h]

/-- C1 (counterexample): a session that receives the null-candidate signal
and then the gathering-state-change-to-complete signal queues `ready`
twice, not once — the second trigger is not a no-op. -/
theorem ready_queued_twice_on_dual_completion_signal :
    readyCount (runIce Peer.init
        [IceEvent.cand none, IceEvent.gather (some "complete")]).2 = 2 ∧
    1 < readyCount (runIce Peer.init
        [IceEvent.cand none, IceEvent.gather (some "complete")]).2 := by
  decide

/-- C2: stage registration via `codec()` appends in order; the codec loop
of `local` is the left fold of the stages over the SDP text in registration
order; and the description committed by either an `offer()` flow or an
`answer()` flow carries exactly that fold of the registered stages — the
pipeline is applied to every outgoing description, initiator and responder
alike. -/
theorem pipeline_is_left_fold_in_registration_order (p : Peer)
    (fs : List (String → String)) (text : String) (d : SessionDesc) (hasFn : Bool) :
    (registerStages p fs).codecs = p.codecs ++ fs ∧
    applyCodecs fs text = fs.foldl (fun s f => f s) text ∧
    Eff.setLocalDescription { d with sdp := fs.foldl (fun s f => f s) d.sdp } ∈
      (Peer.offer (registerStages Peer.init fs) hasFn (SdpOutcome.ok d)).2 ∧
    Eff.setLocalDescription { d with sdp := fs.foldl (fun s f => f s) d.sdp } ∈
      (Peer.answer (registerStages Peer.init fs) hasFn (SdpOutcome.ok d)).2 := by
  have hc : (registerStages Peer.init fs).codecs = fs := by
    rw [registerStages_codecs]
    simp [Peer.init]
  refine ⟨registerStages_codecs fs p, applyCodecs_eq_foldl fs text, ?_, ?_⟩
  · cases hasFn <;>
      simp [Peer.offer, Peer.session, Peer.local, queueOp, hc, applyCodecs_eq_foldl]
  · cases hasFn <;>
      simp [Peer.answer, Peer.session, Peer.local, queueOp, hc, applyCodecs_eq_foldl]

/-- C3 (counterexample): on a fresh peer, `offer()` followed by `answer()`
raises nothing — the second call emits no `error`, invokes the transport
createAnswer handler, and overwrites the committed local description
(the offer description gives way to the answer description), so the second
call is silently accepted and mutates negotiation state. -/
theorem answer_after_offer_accepted_silently :
    errorEmits (Peer.answer (Peer.offer Peer.init false (SdpOutcome.ok ⟨"offer", "sA"⟩)).1
        false (SdpOutcome.ok ⟨"answer", "sB"⟩)).2 = [] ∧
    Eff.callHandler "createAnswer" ∈
      (Peer.answer (Peer.offer Peer.init false (SdpOutcome.ok ⟨"offer", "sA"⟩)).1
        false (SdpOutcome.ok ⟨"answer", "sB"⟩)).2 ∧
    (Peer.answer (Peer.offer Peer.init false (SdpOutcome.ok ⟨"offer", "sA"⟩)).1
        false (SdpOutcome.ok ⟨"answer", "sB"⟩)).1.connection.localDesc =
      some ⟨"answer", "sB"⟩ ∧
    (Peer.offer Peer.init false (SdpOutcome.ok ⟨"offer", "sA"⟩)).1.connection.localDesc =
      some ⟨"offer", "sA"⟩ := by
  decide

/-- C3 (amended): neither `offer()` nor `answer()` checks for a fixed role,
so calling the other one afterwards (in either order) raises no usage
error: the second call emits no `error` event, invokes the transport
create handler for its own type, and commits a new local description. -/
theorem role_calls_unguarded_proceed (p : Peer) (hasFn : Bool) (d1 d2 : SessionDesc) :
    errorEmits (Peer.answer (Peer.offer p hasFn (SdpOutcome.ok d1)).1 hasFn (SdpOutcome.ok d2)).2 = [] ∧
    Eff.callHandler "createAnswer" ∈
      (Peer.answer (Peer.offer p hasFn (SdpOutcome.ok d1)).1 hasFn (SdpOutcome.ok d2)).2 ∧
    (Peer.answer (Peer.offer p hasFn (SdpOutcome.ok d1)).1 hasFn (SdpOutcome.ok d2)).1.connection.localDesc =
      some { d2 with sdp := applyCodecs p.codecs d2.sdp } ∧
    errorEmits (Peer.offer (Peer.answer p hasFn (SdpOutcome.ok d1)).1 hasFn (SdpOutcome.ok d2)).2 = [] ∧
    Eff.callHandler "createOffer" ∈
      (Peer.offer (Peer.answer p hasFn (SdpOutcome.ok d1)).1 hasFn (SdpOutcome.ok d2)).2 ∧
    (Peer.offer (Peer.answer p hasFn (SdpOutcome.ok d1)).1 hasFn (SdpOutcome.ok d2)).1.connection.localDesc =
      some { d2 with sdp := applyCodecs p.codecs d2.sdp } := by
  have hba : "before ".append "answer" ≠ "error" := by decide
  have hbo : "before ".append "offer" ≠ "error" := by decide
  cases hasFn <;>
    simp [Peer.offer, Peer.answer, Peer.session, Peer.local, queueOp, errorEmits,
      handlerName, hba, hbo]

/-- C4: in every successful `session()` flow the pipeline-transformed
description is committed with setLocalDescription, and only afterwards is
the caller-supplied completion invoked and the offer/answer lifecycle
event queued (the sublist fixes the order); moreover the only committed
description is the transformed one — a description is never committed
before being pipeline-transformed — and exactly one lifecycle event is
queued, carrying the transformed description. -/
theorem pipeline_transform_precedes_commit_precedes_surface (p : Peer)
    (hasFn : Bool) (type : String) (d : SessionDesc) :
    List.Sublist
      ([Eff.setLocalDescription { d with sdp := applyCodecs p.codecs d.sdp }] ++
        (if hasFn then [Eff.callFn { d with sdp := applyCodecs p.codecs d.sdp }] else []) ++
        [Eff.queued type (Payload.desc { d with sdp := applyCodecs p.codecs d.sdp })])
      (Peer.session p hasFn type (SdpOutcome.ok d)).2 ∧
    setLocals (Peer.session p hasFn type (SdpOutcome.ok d)).2 =
      [{ d with sdp := applyCodecs p.codecs d.sdp }] ∧
    queuedEvents (Peer.session p hasFn type (SdpOutcome.ok d)).2 =
      [(type, Payload.desc { d with sdp := applyCodecs p.codecs d.sdp })] := by
  refine ⟨?_, ?_, ?_⟩
  · show List.Sublist _ ([Eff.emit (String.append "before " type) Payload.nil,
      Eff.callHandler (handlerName type)] ++
      ([Eff.setLocalDescription { d with sdp := applyCodecs p.codecs d.sdp }] ++
        (if hasFn then [Eff.callFn { d with sdp := applyCodecs p.codecs d.sdp }] else []) ++
        [Eff.queued type (Payload.desc { d with sdp := applyCodecs p.codecs d.sdp })]))
    exact List.sublist_append_right _ _
  · cases hasFn <;> simp [Peer.session, Peer.local, queueOp, setLocals]
  · cases hasFn <;> simp [Peer.session, Peer.local, queueOp, queuedEvents]

/-- C5: when the transport primitive rejects offer/answer creation the
session emits exactly one `error` event carrying the cause, the peer state
is unchanged, nothing is committed and no lifecycle event is queued (the
embedded method returns normally, so no fault reaches the caller), and a
retry of the same call on the resulting state commits the transformed
description as if no failure had happened. -/
theorem creation_failure_emits_error_keeps_state (p : Peer) (hasFn : Bool)
    (type : String) (e : String) (d : SessionDesc) :
    (Peer.session p hasFn type (SdpOutcome.err e)).1 = p ∧
    errorEmits (Peer.session p hasFn type (SdpOutcome.err e)).2 = [Payload.err e] ∧
    setLocals (Peer.session p hasFn type (SdpOutcome.err e)).2 = [] ∧
    queuedEvents (Peer.session p hasFn type (SdpOutcome.err e)).2 = [] ∧
    setLocals (Peer.session (Peer.session p hasFn type (SdpOutcome.err e)).1
        hasFn type (SdpOutcome.ok d)).2 =
      [{ d with sdp := applyCodecs p.codecs d.sdp }] := by
  have hne : String.append "before " type ≠ "error" := by
    intro h
    have hd : "before ".data ++ type.data = "error".data := congrArg String.data h
    have hl : ("before ".data ++ type.data).length = "error".data.length := by rw [hd]
    rw [List.length_append] at hl
    have h7 : "before ".data.length = 7 := rfl
    have h5 : "error".data.length = 5 := rfl
    rw [h7, h5] at hl
    omega
  refine ⟨rfl, ?_, ?_, ?_, ?_⟩
  · simp [Peer.session, errorEmits, hne]
  · simp [Peer.session, setLocals]
  · simp [Peer.session, queuedEvents]
  · cases hasFn <;> simp [Peer.session, Peer.local, queueOp, setLocals]

/-- C6: every `offer()` flow creates the master data channel and binds it
before the transport createOffer handler is invoked (for either outcome of
the creation), and the binding happens exactly once in the flow — never
after offer creation. -/
theorem data_channel_created_before_offer_creation (p : Peer) (hasFn : Bool)
    (out : SdpOutcome) :
    List.Sublist [Eff.createDataChannel "master", Eff.bindChannel 0,
        Eff.callHandler "createOffer"]
      (Peer.offer p hasFn out).2 ∧
    (Peer.offer p hasFn out).2.countP isBind = 1 ∧
    (Peer.offer p hasFn out).2.countP isCreateDataChannel = 1 := by
  have hh : handlerName "offer" = "createOffer" := by simp [handlerName]
  refine ⟨?_, ?_, ?_⟩
  · cases out with
    | ok d =>
      refine List.Sublist.cons₂ _ (List.Sublist.cons₂ _ ?_)
      rw [show (Peer.session { p with channel := some 0 } hasFn "offer" (SdpOutcome.ok d)).2 =
        [Eff.emit (String.append "before " "offer") Payload.nil, Eff.callHandler (handlerName "offer")] ++
        ([Eff.setLocalDescription _] ++ (if hasFn then [Eff.callFn _] else []) ++ [Eff.queued _ _]) from rfl]
      rw [hh]
      simp
    | err e =>
      refine List.Sublist.cons₂ _ (List.Sublist.cons₂ _ ?_)
      rw [show (Peer.session { p with channel := some 0 } hasFn "offer" (SdpOutcome.err e)).2 =
        [Eff.emit (String.append "before " "offer") Payload.nil, Eff.callHandler (handlerName "offer"),
          Eff.emit "error" (Payload.err e)] from rfl]
      rw [hh]
      simp
  · cases out with
    | ok d => cases hasFn <;> simp [Peer.offer, Peer.session, Peer.local, queueOp, isBind, List.countP_cons, List.countP_append]
    | err e => simp [Peer.offer, Peer.session, isBind, List.countP_cons]
  · cases out with
    | ok d => cases hasFn <;> simp [Peer.offer, Peer.session, Peer.local, queueOp, isCreateDataChannel, List.countP_cons, List.countP_append]
    | err e => simp [Peer.offer, Peer.session, isCreateDataChannel, List.countP_cons]

/-- C7 (counterexample): after a responder `answer()` flow, two channel-open
callbacks from the transport primitive call the `channel(...)` binding
constructor twice — a second binding is created (and replaces the first),
not suppressed. -/
theorem duplicate_channel_event_binds_twice :
    ((fireDataChannel (Peer.answer Peer.init false (SdpOutcome.ok ⟨"answer", "s"⟩)).1 5).2 ++
      (fireDataChannel (fireDataChannel (Peer.answer Peer.init false
        (SdpOutcome.ok ⟨"answer", "s"⟩)).1 5).1 6).2).countP isBind = 2 ∧
    1 < ((fireDataChannel (Peer.answer Peer.init false (SdpOutcome.ok ⟨"answer", "s"⟩)).1 5).2 ++
      (fireDataChannel (fireDataChannel (Peer.answer Peer.init false
        (SdpOutcome.ok ⟨"answer", "s"⟩)).1 5).1 6).2).countP isBind ∧
    (fireDataChannel (fireDataChannel (Peer.answer Peer.init false
      (SdpOutcome.ok ⟨"answer", "s"⟩)).1 5).1 6).1.channel = some 6 := by
  decide

/-- The `answer()` flow leaves the ondatachannel handler installed,
whatever the creation outcome. -/
theorem answer_keeps_handler (p : Peer) (hasFn : Bool) (out : SdpOutcome) :
    (Peer.answer p hasFn out).1.connection.ondatachannelSet = true := by
  cases out with
  | ok d => cases hasFn <;> simp [Peer.answer, Peer.session, Peer.local, queueOp]
  | err e => simp [Peer.answer, Peer.session]

/-- C7 (amended): on a responder session every channel-open callback
creates a fresh `channel(...)` binding — two callbacks create two bindings,
and the session keeps the channel of the last one. -/
theorem each_channel_event_creates_binding (p : Peer) (hasFn : Bool)
    (out : SdpOutcome) (ch1 ch2 : Nat) :
    ((fireDataChannel (Peer.answer p hasFn out).1 ch1).2 ++
      (fireDataChannel (fireDataChannel (Peer.answer p hasFn out).1 ch1).1 ch2).2).countP isBind = 2 ∧
    (fireDataChannel (fireDataChannel (Peer.answer p hasFn out).1 ch1).1 ch2).1.channel = some ch2 := by
  have h1 := answer_keeps_handler p hasFn out
  simp [fireDataChannel, h1, isBind, List.countP_cons]

/-- One gathering signal emits a live `candidate` event exactly for a
non-null candidate payload, relayed unchanged, and never queues a
`candidate` event. -/
theorem candidateEmits_iceStep (p : Peer) (e : IceEvent) :
    candidateEmits (iceStep p e).2 = nonNullCandidates [e] ∧
      (iceStep p e).2.countP isQueuedCandidate = 0 := by
  cases e with
  | cand c =>
    cases c with
    | none => simp [iceStep, onicecandidate, queueOp, candidateEmits, nonNullCandidates, isQueuedCandidate]
    | some c => simp [iceStep, onicecandidate, candidateEmits, nonNullCandidates, isQueuedCandidate]
  | gather t =>
    cases t with
    | none => simp [iceStep, ongatheringchange, candidateEmits, nonNullCandidates]
    | some s =>
      by_cases h : s == "complete" <;>
        simp [iceStep, ongatheringchange, h, queueOp, candidateEmits, nonNullCandidates, isQueuedCandidate]

/-- C8: over any sequence of gathering signals, the live `candidate`
emissions are exactly the non-null candidates of the sequence — same
payloads, same order, same multiplicity (duplicates included) — and no
`candidate` event is ever retained in the pending queue. -/
theorem candidates_relayed_live_unbuffered (p : Peer) (evs : List IceEvent) :
    candidateEmits (runIce p evs).2 = nonNullCandidates evs ∧
      (runIce p evs).2.countP isQueuedCandidate = 0 := by
  induction evs generalizing p with
  | nil => simp [runIce, candidateEmits, nonNullCandidates]
  | cons e es ih =>
    have h1 := candidateEmits_iceStep p e
    have h2 := ih (iceStep p e).1
    have hsplit : (runIce p (e :: es)).2 = (iceStep p e).2 ++ (runIce (iceStep p e).1 es).2 := rfl
    have hnn : nonNullCandidates (e :: es) = nonNullCandidates [e] ++ nonNullCandidates es := by
      cases e with
      | cand c => cases c <;> simp [nonNullCandidates]
      | gather t => simp [nonNullCandidates]
    rw [hsplit]
    constructor
    · rw [candidateEmits, List.filterMap_append]
      rw [show (List.filterMap _ (iceStep p e).2 = candidateEmits (iceStep p e).2) from rfl]
      rw [show (List.filterMap _ (runIce (iceStep p e).1 es).2 = candidateEmits (runIce (iceStep p e).1 es).2) from rfl]
      rw [h1.1, h2.1, hnn]
    · rw [List.countP_append, h1.2, h2.2]

/-- C9: `send(msg)` performs exactly one effect — queueing a
`channel message` event with the message — appends that event to the
pending queue behind every earlier event, leaves codecs, channel and the
committed description untouched, and (via the replay contract modelled
from the spec) the backlog a channel binding receives once it exists is
the previous backlog followed by this message. -/
theorem send_queues_channel_message (p : Peer) (msg : String) :
    (Peer.send p msg).2 = [Eff.queued "channel message" (Payload.msg msg)] ∧
    (Peer.send p msg).1.pendingQueue = p.pendingQueue ++ [("channel message", Payload.msg msg)] ∧
    replayFor (Peer.send p msg).1 "channel message" =
      replayFor p "channel message" ++ [Payload.msg msg] ∧
    (Peer.send p msg).1.channel = p.channel ∧
    (Peer.send p msg).1.codecs = p.codecs ∧
    (Peer.send p msg).1.connection.localDesc = p.connection.localDesc := by
  refine ⟨rfl, rfl, ?_, rfl, rfl, rfl⟩
  simp [Peer.send, queueOp, replayFor, List.filter_append]

/-- C10: `ice(candidate)` with a falsy candidate is a no-op — the peer is
returned unchanged and no transport call happens — while a truthy
candidate is wrapped in a `Candidate` and added to the connection. -/
theorem ice_falsy_noop_truthy_adds (p : Peer) :
    Peer.ice p none = (p, []) ∧
    ∀ c : String, Peer.ice p (some c) = (p, [Eff.addIceCandidate (Candidate.mk c)]) := by
  exact ⟨rfl, fun c => rfl⟩
